import Mathlib

/-!
# Verification of the dw-lazy-list windowing engine

Shallow embedding of the activation engine of `src/dw-lazy-list.js`
(class `DwLazyList`): the `refresh` scan, the `initialItemRefresh` scan
and the `_refreshScrollProps` boundary-flag computation.

Geometry (offsets, scroll position, viewport length, content length) is
modelled by rationals; item indices and the count-valued configuration
options by naturals.  The lodash `forEach` traversal is modelled
faithfully: an iteratee returning `true` continues with the next element
and an iteratee returning `false` terminates the traversal, leaving the
remaining elements untouched.
-/

namespace DwLazyList

/-- One light-DOM child as the engine sees it: its leading-edge position
along the active axis (`offsetTop` / `offsetLeft`) and its `active` flag. -/
structure Item where
  offset : ℚ
  active : Bool
deriving DecidableEq, Repr

/-- The viewport state queried fresh on each run: `_findScorllLength()`,
`_findViewportLength()` and `_findContentLength()`. -/
structure Viewport where
  scrollLength : ℚ
  viewportLength : ℚ
  contentLength : ℚ
deriving DecidableEq, Repr

/-- Per-run configuration of the element: `nonContinuous`,
`initialItemsCount`, `prerenderItemsPercentages`, `prerenderItemsCount`. -/
structure Config where
  nonContinuous : Bool
  initialItemsCount : ℕ
  prerenderItemsPercentages : ℚ
  prerenderItemsCount : ℕ
deriving DecidableEq, Repr

/-- The three reflected output properties `_hasScroll`, `_scrollTop`,
`_scrollBottom`. -/
structure ScrollProps where
  hasScroll : Bool
  scrollTop : Bool
  scrollBottom : Bool
deriving DecidableEq, Repr

/-- `_refreshScrollProps(viewportLength, scrollLength)`:
`_hasScroll = contentLength > viewportLength`,
`_scrollTop = _hasScroll && scrollLength == 0`,
`_scrollBottom = _hasScroll && contentLength == viewportLength + scrollLength`. -/
def refreshScrollProps (v : Viewport) : ScrollProps :=
  { hasScroll := decide (v.contentLength > v.viewportLength)
    scrollTop := decide (v.contentLength > v.viewportLength) && decide (v.scrollLength = 0)
    scrollBottom := decide (v.contentLength > v.viewportLength) &&
      decide (v.contentLength = v.viewportLength + v.scrollLength) }

/-- The four window bounds computed at the top of `refresh()`:
`viewportBottom`, `viewportTop`, `viewportExtendedBottom`,
`viewportExtendedTop`. -/
structure Bounds where
  viewportBottom : ℚ
  viewportTop : ℚ
  viewportExtendedBottom : ℚ
  viewportExtendedTop : ℚ
deriving DecidableEq, Repr

/-- Lines 249-252 of `refresh()`:
`viewportBottom = scrollLength + viewportLength`,
`viewportTop = scrollLength - viewportLength`, and the extended bounds
obtained by widening each by `viewportLength * prerenderItemsPercentages`. -/
def computeBounds (cfg : Config) (v : Viewport) : Bounds :=
  { viewportBottom := v.scrollLength + v.viewportLength
    viewportTop := v.scrollLength - v.viewportLength
    viewportExtendedBottom := v.scrollLength + v.viewportLength +
      v.viewportLength * cfg.prerenderItemsPercentages
    viewportExtendedTop := v.scrollLength - v.viewportLength -
      v.viewportLength * cfg.prerenderItemsPercentages }

/-- The update of `lastVisibleElementInViewport` (line 276-278): when the
current element's start position is below `viewportBottom` the variable is
set to the current index, otherwise it keeps its value. -/
def nextLastVisible (b : Bounds) (idx lastVis : ℕ) (item : Item) : ℕ :=
  if item.offset < b.viewportBottom then idx else lastVis

/-- The `forEach` body of `refresh()` (lines 255-287), traversing the
remaining items.  `idx` is the index of the head item, `lastVis` the
current value of `lastVisibleElementInViewport`.  Returning `false` from
the lodash iteratee (the fall-through at line 286) terminates the
traversal, so in that case the remaining items are returned unchanged. -/
def refreshGo (cfg : Config) (b : Bounds) : ℕ → ℕ → List Item → List Item
  | _, _, [] => []
  | idx, lastVis, item :: rest =>
    if item.active = true then
      item :: refreshGo cfg b (idx + 1) lastVis rest
    else if idx < cfg.initialItemsCount then
      { item with active := true } :: refreshGo cfg b (idx + 1) lastVis rest
    else if cfg.nonContinuous = true then
      (if item.offset < b.viewportExtendedBottom ∧
          (item.offset > b.viewportTop ∨ item.offset > b.viewportExtendedTop) then
        { item with active := true }
      else item) :: refreshGo cfg b (idx + 1) lastVis rest
    else if item.offset < b.viewportExtendedBottom ∨
        idx ≤ nextLastVisible b idx lastVis item + cfg.prerenderItemsCount then
      { item with active := true } ::
        refreshGo cfg b (idx + 1) (nextLastVisible b idx lastVis item) rest
    else
      item :: rest

/-- `refresh()`: recompute the scroll props and run the windowing scan
from index `0` with `lastVisibleElementInViewport = 0`. -/
def refresh (cfg : Config) (v : Viewport) (items : List Item) :
    List Item × ScrollProps :=
  (refreshGo cfg (computeBounds cfg v) 0 0 items, refreshScrollProps v)

/-- The `forEach` body of `initialItemRefresh()` (lines 209-220): skip
active items, activate items with index below `initialItemsCount`, and
terminate the traversal (iteratee returns `false`) at the first other
item. -/
def initialItemRefreshGo (n : ℕ) : ℕ → List Item → List Item
  | _, [] => []
  | idx, item :: rest =>
    if item.active = true then
      item :: initialItemRefreshGo n (idx + 1) rest
    else if idx < n then
      { item with active := true } :: initialItemRefreshGo n (idx + 1) rest
    else
      item :: rest

/-- `initialItemRefresh()`: recompute the scroll props and run the
initial-floor scan from index `0`. -/
def initialItemRefresh (cfg : Config) (v : Viewport) (items : List Item) :
    List Item × ScrollProps :=
  (initialItemRefreshGo cfg.initialItemsCount 0 items, refreshScrollProps v)

/-- A run of the engine is either the initial run (`initialItemRefresh`)
or a full refresh (`refresh`). -/
inductive RunKind where
  | initial : RunKind
  | full : RunKind
deriving DecidableEq, Repr

/-- Apply one engine run to a sequence of items. -/
def applyRun : RunKind × Config × Viewport → List Item → List Item
  | (RunKind.initial, cfg, v), items => (initialItemRefresh cfg v items).1
  | (RunKind.full, cfg, v), items => (refresh cfg v items).1

/-- Apply a sequence of engine runs, oldest first. -/
def applyRuns (runs : List (RunKind × Config × Viewport)) (items : List Item) :
    List Item :=
  runs.foldl (fun acc r => applyRun r acc) items

/-- The per-item NON_CONTINUOUS decision, stated following the spec's
words: keep active items, activate floor items, otherwise activate iff
`offset < extendedFar ∧ (offset > viewportNear ∨ offset > extendedNear)`.
It takes no `prerenderItemsCount` and no neighbour information. -/
def nonContinuousItem (n : ℕ) (b : Bounds) (idx : ℕ) (item : Item) : Item :=
  if item.active = true then item
  else if idx < n then { item with active := true }
  else if item.offset < b.viewportExtendedBottom ∧
      (item.offset > b.viewportTop ∨ item.offset > b.viewportExtendedTop) then
    { item with active := true }
  else item

/-- The NON_CONTINUOUS scan, stated following the spec's words: every item
is judged independently by `nonContinuousItem`; there is no early
termination and no shared state between items. -/
def nonContinuousScan (n : ℕ) (b : Bounds) : ℕ → List Item → List Item
  | _, [] => []
  | idx, item :: rest =>
    nonContinuousItem n b idx item :: nonContinuousScan n b (idx + 1) rest

/-! ## Helper lemmas -/

/-- Setting `active := true` on an already-active item is the identity. -/
theorem item_set_active (it : Item) (h : it.active = true) :
    { it with active := true } = it := by
  cases it
  simp_all

/-- Step equation: an active head item is skipped with the bookkeeping
value unchanged. -/
theorem refreshGo_cons_active (cfg : Config) (b : Bounds) (idx lastVis : ℕ)
    (item : Item) (rest : List Item) (hact : item.active = true) :
    refreshGo cfg b idx lastVis (item :: rest) =
      item :: refreshGo cfg b (idx + 1) lastVis rest := by
  rw [refreshGo, if_pos hact]

/-- Step equation: a non-active head item below the initial floor is
activated unconditionally. -/
theorem refreshGo_cons_floor (cfg : Config) (b : Bounds) (idx lastVis : ℕ)
    (item : Item) (rest : List Item) (hact : item.active = false)
    (hfloor : idx < cfg.initialItemsCount) :
    refreshGo cfg b idx lastVis (item :: rest) =
      { item with active := true } :: refreshGo cfg b (idx + 1) lastVis rest := by
  rw [refreshGo, if_neg (by simp [hact]), if_pos hfloor]

/-- Step equation for the NON_CONTINUOUS branch of the scan body. -/
theorem refreshGo_cons_nonCont (cfg : Config) (b : Bounds) (idx lastVis : ℕ)
    (item : Item) (rest : List Item) (hact : item.active = false)
    (hfloor : ¬ idx < cfg.initialItemsCount)
    (hmode : cfg.nonContinuous = true) :
    refreshGo cfg b idx lastVis (item :: rest) =
      (if item.offset < b.viewportExtendedBottom ∧
          (item.offset > b.viewportTop ∨ item.offset > b.viewportExtendedTop) then
        { item with active := true }
      else item) :: refreshGo cfg b (idx + 1) lastVis rest := by
  rw [refreshGo, if_neg (by simp [hact]), if_neg hfloor, if_pos hmode]

/-- Step equation for the CONTINUOUS branch when a test passes: the item
is activated and the scan continues with the updated bookkeeping value. -/
theorem refreshGo_cons_cont_pos (cfg : Config) (b : Bounds) (idx lastVis : ℕ)
    (item : Item) (rest : List Item) (hact : item.active = false)
    (hfloor : ¬ idx < cfg.initialItemsCount)
    (hmode : cfg.nonContinuous = false)
    (htest : item.offset < b.viewportExtendedBottom ∨
      idx ≤ nextLastVisible b idx lastVis item + cfg.prerenderItemsCount) :
    refreshGo cfg b idx lastVis (item :: rest) =
      { item with active := true } ::
        refreshGo cfg b (idx + 1) (nextLastVisible b idx lastVis item) rest := by
  rw [refreshGo, if_neg (by simp [hact]), if_neg hfloor,
    if_neg (by simp [hmode]), if_pos htest]

/-- Step equation for the CONTINUOUS branch when both tests fail: the scan
terminates, returning the rest of the sequence unchanged. -/
theorem refreshGo_cons_cont_neg (cfg : Config) (b : Bounds) (idx lastVis : ℕ)
    (item : Item) (rest : List Item) (hact : item.active = false)
    (hfloor : ¬ idx < cfg.initialItemsCount)
    (hmode : cfg.nonContinuous = false)
    (htest : ¬ (item.offset < b.viewportExtendedBottom ∨
      idx ≤ nextLastVisible b idx lastVis item + cfg.prerenderItemsCount)) :
    refreshGo cfg b idx lastVis (item :: rest) = item :: rest := by
  rw [refreshGo, if_neg (by simp [hact]), if_neg hfloor,
    if_neg (by simp [hmode]), if_neg htest]

/-- An item that is already active is returned unchanged by the `refresh`
scan, wherever the traversal stops: the iteratee skips it before any
mutation. -/
theorem refreshGo_active_getElem (cfg : Config) (b : Bounds) :
    ∀ (items : List Item) (idx lastVis i : ℕ) (it : Item),
      items[i]? = some it → it.active = true →
      (refreshGo cfg b idx lastVis items)[i]? = some it := by
  intro items
  induction items with
  | nil => intro idx lastVis i it h _; simp at h
  | cons item rest ih =>
    intro idx lastVis i it h ha
    match i with
    | 0 =>
      rw [List.getElem?_cons_zero] at h
      injection h with h
      subst h
      rw [refreshGo]
      simp [ha]
    | i + 1 =>
      rw [List.getElem?_cons_succ] at h
      rw [refreshGo]
      split_ifs with h1 h2 h3 h4 h5
      all_goals rw [List.getElem?_cons_succ]
      all_goals first
        | exact ih (idx + 1) lastVis i it h ha
        | exact ih (idx + 1) (nextLastVisible b idx lastVis item) i it h ha
        | exact h

/-- An item that is already active is returned unchanged by the
`initialItemRefresh` scan. -/
theorem initGo_active_getElem (n : ℕ) :
    ∀ (items : List Item) (idx i : ℕ) (it : Item),
      items[i]? = some it → it.active = true →
      (initialItemRefreshGo n idx items)[i]? = some it := by
  intro items
  induction items with
  | nil => intro idx i it h _; simp at h
  | cons item rest ih =>
    intro idx i it h ha
    match i with
    | 0 =>
      rw [List.getElem?_cons_zero] at h
      injection h with h
      subst h
      rw [initialItemRefreshGo]
      simp [ha]
    | i + 1 =>
      rw [List.getElem?_cons_succ] at h
      rw [initialItemRefreshGo]
      split_ifs with h1 h2
      all_goals rw [List.getElem?_cons_succ]
      all_goals first
        | exact ih (idx + 1) i it h ha
        | exact h

/-- One engine run of either kind leaves an already-active item unchanged. -/
theorem applyRun_active_getElem (r : RunKind × Config × Viewport)
    (items : List Item) (i : ℕ) (it : Item)
    (h : items[i]? = some it) (ha : it.active = true) :
    (applyRun r items)[i]? = some it := by
  obtain ⟨k, cfg, v⟩ := r
  cases k with
  | initial => exact initGo_active_getElem cfg.initialItemsCount items 0 i it h ha
  | full => exact refreshGo_active_getElem cfg (computeBounds cfg v) items 0 0 i it h ha

/-- Claim C1: activation is a one-way latch — an item whose `active` flag is
`true` is left exactly as it is (in particular still active) by every
subsequent sequence of engine runs (`refresh` / `initialItemRefresh`); no
run ever resets `active` from `true` to `false`. -/
theorem active_latch (runs : List (RunKind × Config × Viewport))
    (items : List Item) (i : ℕ) (it : Item)
    (h : items[i]? = some it) (ha : it.active = true) :
    (applyRuns runs items)[i]? = some it := by
  induction runs generalizing items with
  | nil => simpa [applyRuns] using h
  | cons r rs ih =>
    have step := applyRun_active_getElem r items i it h ha
    simpa [applyRuns] using ih (applyRun r items) step

/-- Witness for C1 at a concrete input. -/
theorem active_latch_witness :
    (applyRuns [(RunKind.full, ⟨false, 0, 0, 0⟩, ⟨0, 10, 1000⟩),
        (RunKind.initial, ⟨false, 0, 0, 0⟩, ⟨0, 10, 1000⟩)]
      [⟨5, true⟩])[0]? = some ⟨5, true⟩ :=
  active_latch _ _ 0 ⟨5, true⟩ rfl rfl

/-- With `prerenderItemsPercentages = 0`, scroll 0 and viewport length 10
the window bounds are `⟨10, -10, 10, -10⟩`. -/
theorem computeBounds_zero_ten (nc : Bool) (n p : ℕ) :
    computeBounds ⟨nc, n, 0, p⟩ ⟨0, 10, 1000⟩ = ⟨10, -10, 10, -10⟩ := by
  norm_num [computeBounds]

/-- With `prerenderItemsPercentages = 0`, scroll 0 and viewport length 0
all four window bounds collapse to 0. -/
theorem computeBounds_zero_zero (nc : Bool) (n p : ℕ) :
    computeBounds ⟨nc, n, 0, p⟩ ⟨0, 0, 1000⟩ = ⟨0, 0, 0, 0⟩ := by
  norm_num [computeBounds]

/-- Claim C2 counterexample: in CONTINUOUS mode the scan does NOT continue
past an item that fails both activation tests.  With
`initialItemsCount = 0`, `prerenderItemsPercentages = 0`,
`prerenderItemsCount = 0`, scroll 0 and viewport length 10 (so
`viewportExtendedBottom = 10`), the item at index 1 (offset 100) fails both
tests and the scan stops there: the item at index 2 has offset `5 < 10`,
satisfying the offset test, yet it is not activated in that run. -/
theorem continuous_early_break_cex :
    (refresh ⟨false, 0, 0, 0⟩ ⟨0, 10, 1000⟩
        [⟨100, false⟩, ⟨100, false⟩, ⟨5, false⟩]).1 =
      [⟨100, true⟩, ⟨100, false⟩, ⟨5, false⟩] ∧
    (5 : ℚ) < (computeBounds ⟨false, 0, 0, 0⟩ ⟨0, 10, 1000⟩).viewportExtendedBottom := by
  constructor
  · show refreshGo _ (computeBounds _ _) 0 0 _ = _
    rw [computeBounds_zero_ten]
    decide
  · rw [computeBounds_zero_ten]
    decide

/-- Claim C2 (amended): in CONTINUOUS mode, when a non-active item with
index ≥ `initialItemsCount` fails both activation tests, the scan
terminates at that item (the lodash iteratee returns `false`): the item is
left not-yet-active and all subsequent items are returned unchanged, even
those that would satisfy a test. -/
theorem continuous_early_break (cfg : Config) (b : Bounds) (idx lastVis : ℕ)
    (item : Item) (rest : List Item)
    (hmode : cfg.nonContinuous = false) (hact : item.active = false)
    (hfloor : cfg.initialItemsCount ≤ idx)
    (hoff : ¬ item.offset < b.viewportExtendedBottom)
    (hidx : ¬ idx ≤ nextLastVisible b idx lastVis item + cfg.prerenderItemsCount) :
    refreshGo cfg b idx lastVis (item :: rest) = item :: rest := by
  rw [refreshGo]
  rw [if_neg (by simp [hact]), if_neg (Nat.not_lt.mpr hfloor),
    if_neg (by simp [hmode]), if_neg (by simp [hoff, hidx])]

/-- Witness for the amended C2 at a concrete input. -/
theorem continuous_early_break_witness :
    refreshGo ⟨false, 0, 0, 0⟩ ⟨10, -10, 10, -10⟩ 1 0
        [⟨100, false⟩, ⟨5, false⟩] = [⟨100, false⟩, ⟨5, false⟩] :=
  continuous_early_break ⟨false, 0, 0, 0⟩ ⟨10, -10, 10, -10⟩ 1 0 ⟨100, false⟩
    [⟨5, false⟩] rfl rfl (by decide) (by decide) (by decide)

/-- With `nonContinuous = true` the `refresh` scan agrees with the
independent per-item scan, for any starting index and any value of
`lastVisibleElementInViewport`. -/
theorem refreshGo_nonContinuous (cfg : Config) (b : Bounds)
    (hmode : cfg.nonContinuous = true) :
    ∀ (items : List Item) (idx lastVis : ℕ),
      refreshGo cfg b idx lastVis items =
        nonContinuousScan cfg.initialItemsCount b idx items := by
  intro items
  induction items with
  | nil => intro idx lastVis; rfl
  | cons item rest ih =>
    intro idx lastVis
    rw [refreshGo, nonContinuousScan, nonContinuousItem]
    by_cases hact : item.active = true
    · rw [if_pos hact, if_pos hact, ih]
    · rw [if_neg hact, if_neg hact]
      by_cases hfloor : idx < cfg.initialItemsCount
      · rw [if_pos hfloor, if_pos hfloor, ih]
      · rw [if_neg hfloor, if_neg hfloor, if_pos hmode, ih]

/-- Claim C3: in NON_CONTINUOUS mode the whole run equals the independent
per-item scan (each non-active item with index ≥ `initialItemsCount` is
activated iff `offset < extendedFar ∧ (offset > viewportNear ∨
offset > extendedNear)`, judged independently of every other item, with no
early termination), and `prerenderItemsCount` is never consulted: changing
it changes nothing about the run. -/
theorem nonContinuous_refresh (cfg : Config) (v : Viewport)
    (items : List Item) (hmode : cfg.nonContinuous = true) :
    (refresh cfg v items).1 =
      nonContinuousScan cfg.initialItemsCount (computeBounds cfg v) 0 items ∧
    ∀ p : ℕ, refresh { cfg with prerenderItemsCount := p } v items =
      refresh cfg v items := by
  constructor
  · exact refreshGo_nonContinuous cfg (computeBounds cfg v) hmode items 0 0
  · intro p
    unfold refresh
    refine congrArg (fun l => (l, refreshScrollProps v)) ?_
    rw [refreshGo_nonContinuous { cfg with prerenderItemsCount := p } _ hmode items 0 0,
      refreshGo_nonContinuous cfg _ hmode items 0 0]
    rfl

/-- Witness for C3 at a concrete input. -/
theorem nonContinuous_refresh_witness :
    (refresh ⟨true, 1, 0, 5⟩ ⟨0, 10, 100⟩ [⟨5, false⟩, ⟨50, false⟩]).1 =
      nonContinuousScan 1 (computeBounds ⟨true, 1, 0, 5⟩ ⟨0, 10, 100⟩) 0
        [⟨5, false⟩, ⟨50, false⟩] ∧
    refresh { (⟨true, 1, 0, 5⟩ : Config) with prerenderItemsCount := 7 }
        ⟨0, 10, 100⟩ [⟨5, false⟩, ⟨50, false⟩] =
      refresh ⟨true, 1, 0, 5⟩ ⟨0, 10, 100⟩ [⟨5, false⟩, ⟨50, false⟩] :=
  ⟨(nonContinuous_refresh ⟨true, 1, 0, 5⟩ ⟨0, 10, 100⟩ [⟨5, false⟩, ⟨50, false⟩] rfl).1,
    (nonContinuous_refresh ⟨true, 1, 0, 5⟩ ⟨0, 10, 100⟩ [⟨5, false⟩, ⟨50, false⟩] rfl).2 7⟩

/-- Claim C4: in CONTINUOUS mode a non-active item with index ≥
`initialItemsCount` reached by the scan is marked active iff
`offset < viewportExtendedBottom` or
`index ≤ lastVisibleElementInViewport + prerenderItemsCount` (with the
bookkeeping value updated at the item itself first); and in the concrete
scenario with `prerenderItemsCount = 3` and the last genuinely-visible item
at index 10, the item at index 13 activates although its offset 100 exceeds
`viewportExtendedBottom = 10`, while the item at index 14 with the same
offset does not. -/
theorem continuous_activation_rule :
    (∀ (cfg : Config) (b : Bounds) (idx lastVis : ℕ) (item : Item)
      (rest : List Item),
      cfg.nonContinuous = false → item.active = false →
      cfg.initialItemsCount ≤ idx →
      ((refreshGo cfg b idx lastVis (item :: rest))[0]? =
          some { item with active := true } ↔
        (item.offset < b.viewportExtendedBottom ∨
          idx ≤ nextLastVisible b idx lastVis item + cfg.prerenderItemsCount))) ∧
    (refresh ⟨false, 0, 0, 3⟩ ⟨0, 10, 1000⟩
        [⟨5, false⟩, ⟨5, false⟩, ⟨5, false⟩, ⟨5, false⟩, ⟨5, false⟩,
         ⟨5, false⟩, ⟨5, false⟩, ⟨5, false⟩, ⟨5, false⟩, ⟨5, false⟩,
         ⟨5, false⟩, ⟨100, false⟩, ⟨100, false⟩, ⟨100, false⟩,
         ⟨100, false⟩]).1 =
      [⟨5, true⟩, ⟨5, true⟩, ⟨5, true⟩, ⟨5, true⟩, ⟨5, true⟩,
       ⟨5, true⟩, ⟨5, true⟩, ⟨5, true⟩, ⟨5, true⟩, ⟨5, true⟩,
       ⟨5, true⟩, ⟨100, true⟩, ⟨100, true⟩, ⟨100, true⟩, ⟨100, false⟩] ∧
    (computeBounds ⟨false, 0, 0, 3⟩ ⟨0, 10, 1000⟩).viewportExtendedBottom <
      100 := by
  refine ⟨?_, ?_, ?_⟩
  · intro cfg b idx lastVis item rest hmode hact hfloor
    rw [refreshGo]
    rw [if_neg (by simp [hact]), if_neg (Nat.not_lt.mpr hfloor),
      if_neg (by simp [hmode])]
    by_cases htest : item.offset < b.viewportExtendedBottom ∨
        idx ≤ nextLastVisible b idx lastVis item + cfg.prerenderItemsCount
    · rw [if_pos htest]
      simp [htest]
    · rw [if_neg htest]
      simp only [List.getElem?_cons_zero, Option.some.injEq]
      constructor
      · intro heq
        exact absurd (congrArg Item.active heq).symm (by simp [hact])
      · intro hc
        exact absurd hc htest
  · show refreshGo _ (computeBounds _ _) 0 0 _ = _
    rw [computeBounds_zero_ten]
    decide
  · rw [computeBounds_zero_ten]
    decide

/-- Witness for C4 at a concrete input. -/
theorem continuous_activation_rule_witness :
    (refreshGo ⟨false, 0, 0, 2⟩ ⟨10, -10, 10, -10⟩ 1 0
        [⟨3, false⟩])[0]? = some ⟨3, true⟩ :=
  (continuous_activation_rule.1 ⟨false, 0, 0, 2⟩ ⟨10, -10, 10, -10⟩ 1 0
    ⟨3, false⟩ [] rfl rfl (by decide)).mpr (by decide)

/-- Claim C5 counterexample: already-active items do NOT contribute to the
`lastVisibleElementInViewport` bookkeeping.  With scroll 0, viewport
length 10 (`viewportFar = viewportBottom = 10`), `initialItemsCount = 0`,
`prerenderItemsCount = 1`: items 0 and 1 are already active with
offset `5 < 10`, so under the claim `lastVisibleIndex` would be at least 1
and item 2 (index `2 ≤ 1 + 1`) would activate; the engine leaves item 2
inactive because the skipped active items never update the bookkeeping. -/
theorem lastVisible_skip_cex :
    (refresh ⟨false, 0, 0, 1⟩ ⟨0, 10, 1000⟩
        [⟨5, true⟩, ⟨5, true⟩, ⟨100, false⟩]).1 =
      [⟨5, true⟩, ⟨5, true⟩, ⟨100, false⟩] ∧
    (5 : ℚ) < (computeBounds ⟨false, 0, 0, 1⟩ ⟨0, 10, 1000⟩).viewportBottom ∧
    2 ≤ 1 + (⟨false, 0, 0, 1⟩ : Config).prerenderItemsCount := by
  refine ⟨?_, ?_, by decide⟩
  · show refreshGo _ (computeBounds _ _) 0 0 _ = _
    rw [computeBounds_zero_ten]
    decide
  · rw [computeBounds_zero_ten]
    decide

/-- Claim C5 (amended): already-active items are skipped before the
`lastVisibleElementInViewport` bookkeeping and never contribute to it —
the scan passes them through with the bookkeeping value unchanged; the
value is updated only at a non-active item with index ≥
`initialItemsCount` reached in CONTINUOUS mode, becoming that item's index
exactly when its offset < `viewportBottom` and staying unchanged
otherwise. -/
theorem lastVisible_bookkeeping (cfg : Config) (b : Bounds)
    (idx lastVis : ℕ) (item : Item) (rest : List Item) :
    (item.active = true →
      refreshGo cfg b idx lastVis (item :: rest) =
        item :: refreshGo cfg b (idx + 1) lastVis rest) ∧
    (item.active = false → cfg.initialItemsCount ≤ idx →
      cfg.nonContinuous = false →
      (item.offset < b.viewportExtendedBottom ∨
        idx ≤ nextLastVisible b idx lastVis item + cfg.prerenderItemsCount) →
      refreshGo cfg b idx lastVis (item :: rest) =
        { item with active := true } ::
          refreshGo cfg b (idx + 1) (nextLastVisible b idx lastVis item) rest) ∧
    (item.offset < b.viewportBottom →
      nextLastVisible b idx lastVis item = idx) ∧
    (¬ item.offset < b.viewportBottom →
      nextLastVisible b idx lastVis item = lastVis) := by
  refine ⟨?_, ?_, ?_, ?_⟩
  · intro hact
    rw [refreshGo, if_pos hact]
  · intro hact hfloor hmode htest
    rw [refreshGo, if_neg (by simp [hact]), if_neg (Nat.not_lt.mpr hfloor),
      if_neg (by simp [hmode]), if_pos htest]
  · intro hoff
    rw [nextLastVisible, if_pos hoff]
  · intro hoff
    rw [nextLastVisible, if_neg hoff]

/-- Witness for the amended C5 at a concrete input. -/
theorem lastVisible_bookkeeping_witness :
    refreshGo ⟨false, 0, 0, 1⟩ ⟨10, -10, 10, -10⟩ 0 0 [⟨5, true⟩] =
      ⟨5, true⟩ :: refreshGo ⟨false, 0, 0, 1⟩ ⟨10, -10, 10, -10⟩ 1 0 [] ∧
    nextLastVisible ⟨10, -10, 10, -10⟩ 0 0 ⟨5, true⟩ = 0 :=
  ⟨(lastVisible_bookkeeping ⟨false, 0, 0, 1⟩ ⟨10, -10, 10, -10⟩ 0 0
      ⟨5, true⟩ []).1 rfl,
    (lastVisible_bookkeeping ⟨false, 0, 0, 1⟩ ⟨10, -10, 10, -10⟩ 0 0
      ⟨5, true⟩ []).2.2.1 (by decide)⟩

/-- Claim C6: the boundary flags are pure functions of the viewport state,
recomputed on every run: `hasScroll = contentLength > viewportLength`,
`scrollTop = hasScroll && scrollLength == 0`,
`scrollBottom = hasScroll && contentLength == viewportLength +
scrollLength`; concretely, content 1000 / viewport 400 / scroll 0 gives
`(true, true, false)`, scroll 600 gives `scrollBottom = true`, and content
equal to the viewport gives `hasScroll = false` for every scroll offset. -/
theorem boundary_flags (cfg : Config) (v : Viewport) (items : List Item) :
    ((refresh cfg v items).2 = refreshScrollProps v ∧
      (initialItemRefresh cfg v items).2 = refreshScrollProps v) ∧
    ((refreshScrollProps v).hasScroll = true ↔
      v.contentLength > v.viewportLength) ∧
    ((refreshScrollProps v).scrollTop = true ↔
      (refreshScrollProps v).hasScroll = true ∧ v.scrollLength = 0) ∧
    ((refreshScrollProps v).scrollBottom = true ↔
      (refreshScrollProps v).hasScroll = true ∧
        v.contentLength = v.viewportLength + v.scrollLength) ∧
    refreshScrollProps ⟨0, 400, 1000⟩ = ⟨true, true, false⟩ ∧
    (refreshScrollProps ⟨600, 400, 1000⟩).scrollBottom = true ∧
    ∀ s : ℚ, (refreshScrollProps ⟨s, 400, 400⟩).hasScroll = false := by
  refine ⟨⟨rfl, rfl⟩, ?_, ?_, ?_, ?_, ?_, ?_⟩
  · simp [refreshScrollProps]
  · simp [refreshScrollProps]
  · simp [refreshScrollProps]
  · norm_num [refreshScrollProps]
  · norm_num [refreshScrollProps]
  · intro s
    norm_num [refreshScrollProps]

/-- In the `initialItemRefresh` scan, every item whose index is below the
floor is returned activated (an already-active one is returned as it is,
which is the same item). -/
theorem initGo_floor_getElem (n : ℕ) :
    ∀ (items : List Item) (idx i : ℕ) (it : Item),
      items[i]? = some it → idx + i < n →
      (initialItemRefreshGo n idx items)[i]? =
        some { it with active := true } := by
  intro items
  induction items with
  | nil => intro idx i it h _; simp at h
  | cons item rest ih =>
    intro idx i it h hlt
    match i with
    | 0 =>
      rw [List.getElem?_cons_zero] at h
      injection h with h
      subst h
      rw [initialItemRefreshGo]
      by_cases hact : item.active = true
      · rw [if_pos hact, List.getElem?_cons_zero, item_set_active item hact]
      · rw [if_neg hact, if_pos (by omega), List.getElem?_cons_zero]
    | i + 1 =>
      rw [List.getElem?_cons_succ] at h
      rw [initialItemRefreshGo]
      by_cases hact : item.active = true
      · rw [if_pos hact, List.getElem?_cons_succ]
        exact ih (idx + 1) i it h (by omega)
      · rw [if_neg hact, if_pos (show idx < n by omega),
          List.getElem?_cons_succ]
        exact ih (idx + 1) i it h (by omega)

/-- In the `initialItemRefresh` scan, every item whose index is at or above
the floor is returned exactly as it was. -/
theorem initGo_ge_getElem (n : ℕ) :
    ∀ (items : List Item) (idx i : ℕ) (it : Item),
      items[i]? = some it → n ≤ idx + i →
      (initialItemRefreshGo n idx items)[i]? = some it := by
  intro items
  induction items with
  | nil => intro idx i it h _; simp at h
  | cons item rest ih =>
    intro idx i it h hn
    match i with
    | 0 =>
      rw [List.getElem?_cons_zero] at h
      injection h with h
      subst h
      rw [initialItemRefreshGo]
      by_cases hact : item.active = true
      · rw [if_pos hact, List.getElem?_cons_zero]
      · rw [if_neg hact, if_neg (by omega), List.getElem?_cons_zero]
    | i + 1 =>
      rw [List.getElem?_cons_succ] at h
      rw [initialItemRefreshGo]
      by_cases hact : item.active = true
      · rw [if_pos hact, List.getElem?_cons_succ]
        exact ih (idx + 1) i it h (by omega)
      · by_cases hfloor : idx < n
        · rw [if_neg hact, if_pos hfloor, List.getElem?_cons_succ]
          exact ih (idx + 1) i it h (by omega)
        · rw [if_neg hact, if_neg hfloor, List.getElem?_cons_succ, h]

/-- With `initialItemsCount = 0` the `initialItemRefresh` scan changes
nothing. -/
theorem initGo_zero :
    ∀ (items : List Item) (idx : ℕ), initialItemRefreshGo 0 idx items = items := by
  intro items
  induction items with
  | nil => intro idx; rfl
  | cons item rest ih =>
    intro idx
    rw [initialItemRefreshGo]
    by_cases hact : item.active = true
    · rw [if_pos hact, ih]
    · rw [if_neg hact, if_neg (by omega)]

/-- The `initialItemRefresh` scan preserves the length of the sequence. -/
theorem initGo_length (n : ℕ) :
    ∀ (items : List Item) (idx : ℕ),
      (initialItemRefreshGo n idx items).length = items.length := by
  intro items
  induction items with
  | nil => intro idx; rfl
  | cons item rest ih =>
    intro idx
    rw [initialItemRefreshGo]
    split_ifs
    · rw [List.length_cons, List.length_cons, ih]
    · rw [List.length_cons, List.length_cons, ih]
    · rfl

/-- In the `refresh` scan, every item whose index is below the initial
floor is returned activated. -/
theorem refreshGo_floor_getElem (cfg : Config) (b : Bounds) :
    ∀ (items : List Item) (idx lastVis i : ℕ) (it : Item),
      items[i]? = some it → idx + i < cfg.initialItemsCount →
      (refreshGo cfg b idx lastVis items)[i]? =
        some { it with active := true } := by
  intro items
  induction items with
  | nil => intro idx lastVis i it h _; simp at h
  | cons item rest ih =>
    intro idx lastVis i it h hlt
    match i with
    | 0 =>
      rw [List.getElem?_cons_zero] at h
      injection h with h
      subst h
      by_cases hact : item.active = true
      · rw [refreshGo_cons_active cfg b idx lastVis item rest hact,
          List.getElem?_cons_zero, item_set_active item hact]
      · rw [refreshGo_cons_floor cfg b idx lastVis item rest
          (by simpa using hact) (by omega), List.getElem?_cons_zero]
    | i + 1 =>
      rw [List.getElem?_cons_succ] at h
      by_cases hact : item.active = true
      · rw [refreshGo_cons_active cfg b idx lastVis item rest hact,
          List.getElem?_cons_succ]
        exact ih (idx + 1) lastVis i it h (by omega)
      · rw [refreshGo_cons_floor cfg b idx lastVis item rest
          (by simpa using hact) (by omega), List.getElem?_cons_succ]
        exact ih (idx + 1) lastVis i it h (by omega)

/-- Claim C7: the initial floor — after the first run (and after any
`refresh` run) every item with index below `initialItemsCount` is active,
for every viewport state (including a zero-extent viewport); with
`initialItemsCount = 0` the floor is disabled and the initial run changes
nothing at all. -/
theorem initial_floor (cfg : Config) (v : Viewport) (items : List Item) :
    (∀ (i : ℕ) (it : Item), items[i]? = some it →
      i < cfg.initialItemsCount →
      (initialItemRefresh cfg v items).1[i]? =
          some { it with active := true } ∧
        (refresh cfg v items).1[i]? = some { it with active := true }) ∧
    (cfg.initialItemsCount = 0 → (initialItemRefresh cfg v items).1 = items) := by
  constructor
  · intro i it h hi
    exact ⟨initGo_floor_getElem cfg.initialItemsCount items 0 i it h (by omega),
      refreshGo_floor_getElem cfg (computeBounds cfg v) items 0 0 i it h (by omega)⟩
  · intro h0
    show initialItemRefreshGo cfg.initialItemsCount 0 items = items
    rw [h0, initGo_zero]

/-- Witness for C7 at a concrete input. -/
theorem initial_floor_witness :
    (initialItemRefresh ⟨false, 2, 0, 0⟩ ⟨0, 10, 1000⟩ [⟨100, false⟩]).1[0]? =
      some ⟨100, true⟩ ∧
    (refresh ⟨false, 2, 0, 0⟩ ⟨0, 10, 1000⟩ [⟨100, false⟩]).1[0]? =
      some ⟨100, true⟩ :=
  (initial_floor ⟨false, 2, 0, 0⟩ ⟨0, 10, 1000⟩ [⟨100, false⟩]).1 0
    ⟨100, false⟩ rfl (by decide)

/-- Re-running the `refresh` scan on its own output with a bookkeeping
value no larger than the first run's is the identity. -/
theorem refreshGo_idem_aux (cfg : Config) (b : Bounds) :
    ∀ (items : List Item) (idx lv1 lv2 : ℕ), lv2 ≤ lv1 → lv1 ≤ idx →
      refreshGo cfg b idx lv2 (refreshGo cfg b idx lv1 items) =
        refreshGo cfg b idx lv1 items := by
  intro items
  induction items with
  | nil => intro idx lv1 lv2 _ _; rfl
  | cons item rest ih =>
    intro idx lv1 lv2 h21 h1i
    by_cases hact : item.active = true
    · rw [refreshGo_cons_active cfg b idx lv1 item rest hact,
        refreshGo_cons_active cfg b idx lv2 item
          (refreshGo cfg b (idx + 1) lv1 rest) hact,
        ih (idx + 1) lv1 lv2 h21 (by omega)]
    · have hactF : item.active = false := by simpa using hact
      by_cases hfloor : idx < cfg.initialItemsCount
      · rw [refreshGo_cons_floor cfg b idx lv1 item rest hactF hfloor,
          refreshGo_cons_active cfg b idx lv2 { item with active := true }
            (refreshGo cfg b (idx + 1) lv1 rest) rfl,
          ih (idx + 1) lv1 lv2 h21 (by omega)]
      · cases hmode : cfg.nonContinuous with
        | true =>
          rw [refreshGo_cons_nonCont cfg b idx lv1 item rest hactF hfloor hmode]
          by_cases htest : item.offset < b.viewportExtendedBottom ∧
              (item.offset > b.viewportTop ∨ item.offset > b.viewportExtendedTop)
          · rw [if_pos htest,
              refreshGo_cons_active cfg b idx lv2 { item with active := true }
                (refreshGo cfg b (idx + 1) lv1 rest) rfl,
              ih (idx + 1) lv1 lv2 h21 (by omega)]
          · rw [if_neg htest,
              refreshGo_cons_nonCont cfg b idx lv2 item
                (refreshGo cfg b (idx + 1) lv1 rest) hactF hfloor hmode,
              if_neg htest, ih (idx + 1) lv1 lv2 h21 (by omega)]
        | false =>
          by_cases htest : item.offset < b.viewportExtendedBottom ∨
              idx ≤ nextLastVisible b idx lv1 item + cfg.prerenderItemsCount
          · rw [refreshGo_cons_cont_pos cfg b idx lv1 item rest hactF hfloor
              hmode htest,
              refreshGo_cons_active cfg b idx lv2 { item with active := true }
                (refreshGo cfg b (idx + 1) (nextLastVisible b idx lv1 item) rest)
                rfl]
            have hle1 : lv2 ≤ nextLastVisible b idx lv1 item := by
              by_cases hB : item.offset < b.viewportBottom <;>
                simp [nextLastVisible, hB] <;> omega
            have hle2 : nextLastVisible b idx lv1 item ≤ idx + 1 := by
              by_cases hB : item.offset < b.viewportBottom <;>
                simp [nextLastVisible, hB] <;> omega
            rw [ih (idx + 1) (nextLastVisible b idx lv1 item) lv2 hle1 hle2]
          · rw [refreshGo_cons_cont_neg cfg b idx lv1 item rest hactF hfloor
              hmode htest]
            have hnlv : nextLastVisible b idx lv2 item ≤
                nextLastVisible b idx lv1 item := by
              by_cases hB : item.offset < b.viewportBottom <;>
                simp [nextLastVisible, hB] <;> omega
            refine refreshGo_cons_cont_neg cfg b idx lv2 item rest hactF hfloor
              hmode ?_
            intro hc
            rcases hc with hc | hc
            · exact htest (Or.inl hc)
            · exact htest (Or.inr (by omega))

/-- Claim C8: the engine run is idempotent — running `refresh` a second
time on its own output, with unchanged viewport and configuration,
produces exactly the same items and the same boundary flags. -/
theorem refresh_idempotent (cfg : Config) (v : Viewport) (items : List Item) :
    refresh cfg v (refresh cfg v items).1 = refresh cfg v items := by
  show (refreshGo cfg (computeBounds cfg v) 0 0
      (refreshGo cfg (computeBounds cfg v) 0 0 items), refreshScrollProps v) =
    (refreshGo cfg (computeBounds cfg v) 0 0 items, refreshScrollProps v)
  rw [refreshGo_idem_aux cfg (computeBounds cfg v) items 0 0 0 le_rfl le_rfl]

/-- When the extended window is degenerate (`extendedFar ≤ viewportNear`
and `extendedFar ≤ extendedNear`) the NON_CONTINUOUS test can never hold,
so the scan leaves every item with index ≥ `initialItemsCount`
unchanged. -/
theorem nonContinuousScan_degenerate (n : ℕ) (b : Bounds)
    (h1 : b.viewportExtendedBottom ≤ b.viewportTop)
    (h2 : b.viewportExtendedBottom ≤ b.viewportExtendedTop) :
    ∀ (items : List Item) (idx i : ℕ) (it : Item),
      items[i]? = some it → n ≤ idx + i →
      (nonContinuousScan n b idx items)[i]? = some it := by
  intro items
  induction items with
  | nil => intro idx i it h _; simp at h
  | cons item rest ih =>
    intro idx i it h hn
    match i with
    | 0 =>
      rw [List.getElem?_cons_zero] at h
      injection h with h
      subst h
      rw [nonContinuousScan, List.getElem?_cons_zero, nonContinuousItem]
      by_cases hact : item.active = true
      · rw [if_pos hact]
      · have hcond : ¬ (item.offset < b.viewportExtendedBottom ∧
            (item.offset > b.viewportTop ∨ item.offset > b.viewportExtendedTop)) := by
          rintro ⟨hlt, hgt | hgt⟩
          · linarith
          · linarith
        rw [if_neg hact, if_neg (by omega), if_neg hcond]
    | i + 1 =>
      rw [List.getElem?_cons_succ] at h
      rw [nonContinuousScan, List.getElem?_cons_succ]
      exact ih (idx + 1) i it h (by omega)

/-- Claim C9 counterexample: with a zero-extent viewport (scroll 0,
content 1000) the run reports `hasScroll = true`, not `false`, and in
CONTINUOUS mode the item at index 0 is activated even though
`initialItemsCount = 0`, so activation is not restricted to the initial
floor. -/
theorem zero_viewport_cex :
    (refresh ⟨false, 0, 0, 0⟩ ⟨0, 0, 1000⟩ [⟨100, false⟩]).2.hasScroll = true ∧
    (refresh ⟨false, 0, 0, 0⟩ ⟨0, 0, 1000⟩ [⟨100, false⟩]).1 = [⟨100, true⟩] ∧
    (⟨false, 0, 0, 0⟩ : Config).initialItemsCount = 0 := by
  refine ⟨?_, ?_, rfl⟩
  · show (refreshScrollProps ⟨0, 0, 1000⟩).hasScroll = true
    norm_num [refreshScrollProps]
  · show refreshGo _ (computeBounds _ _) 0 0 _ = _
    rw [computeBounds_zero_zero]
    decide

/-- Claim C9 (amended): with a viewport of zero extent the run reports
`hasScroll = (contentExtent > 0)` (true whenever there is any content, not
always false); the absence of geometric activation holds only in
NON_CONTINUOUS mode, where every item with index ≥ `initialItemsCount` is
left exactly as it was; in CONTINUOUS mode items can still activate (see
the counterexample). -/
theorem zero_viewport (cfg : Config) (v : Viewport) (items : List Item)
    (hv : v.viewportLength = 0) :
    (refresh cfg v items).2.hasScroll = decide (v.contentLength > 0) ∧
    (cfg.nonContinuous = true → ∀ (i : ℕ) (it : Item), items[i]? = some it →
      cfg.initialItemsCount ≤ i → (refresh cfg v items).1[i]? = some it) := by
  constructor
  · show decide (v.contentLength > v.viewportLength) = decide (v.contentLength > 0)
    rw [hv]
  · intro hmode i it h hi
    show (refreshGo cfg (computeBounds cfg v) 0 0 items)[i]? = some it
    rw [refreshGo_nonContinuous cfg (computeBounds cfg v) hmode items 0 0]
    apply nonContinuousScan_degenerate
    · simp [computeBounds, hv]
    · simp [computeBounds, hv]
    · exact h
    · omega

/-- Witness for the amended C9 at a concrete input. -/
theorem zero_viewport_witness :
    (refresh ⟨true, 0, 0, 0⟩ ⟨5, 0, 100⟩ [⟨3, false⟩]).2.hasScroll =
      decide ((100 : ℚ) > 0) ∧
    (refresh ⟨true, 0, 0, 0⟩ ⟨5, 0, 100⟩ [⟨3, false⟩]).1[0]? = some ⟨3, false⟩ :=
  ⟨(zero_viewport ⟨true, 0, 0, 0⟩ ⟨5, 0, 100⟩ [⟨3, false⟩] rfl).1,
    (zero_viewport ⟨true, 0, 0, 0⟩ ⟨5, 0, 100⟩ [⟨3, false⟩] rfl).2 rfl 0
      ⟨3, false⟩ rfl (by decide)⟩

/-- Claim C10: the initial run applies no geometric criterion — it
recomputes the three boundary flags, preserves the length of the
sequence, activates exactly the items with index below
`initialItemsCount`, and leaves every item with index ≥
`initialItemsCount` exactly as it was, whatever its offset and whatever
the viewport state. -/
theorem initialItemRefresh_frame (cfg : Config) (v : Viewport)
    (items : List Item) :
    (initialItemRefresh cfg v items).2 = refreshScrollProps v ∧
    (initialItemRefresh cfg v items).1.length = items.length ∧
    ∀ (i : ℕ) (it : Item), items[i]? = some it →
      (i < cfg.initialItemsCount →
        (initialItemRefresh cfg v items).1[i]? =
          some { it with active := true }) ∧
      (cfg.initialItemsCount ≤ i →
        (initialItemRefresh cfg v items).1[i]? = some it) := by
  refine ⟨rfl, initGo_length cfg.initialItemsCount items 0, ?_⟩
  intro i it h
  exact ⟨fun hi => initGo_floor_getElem cfg.initialItemsCount items 0 i it h
      (by omega),
    fun hi => initGo_ge_getElem cfg.initialItemsCount items 0 i it h (by omega)⟩

/-- Witness for C10 at a concrete input. -/
theorem initialItemRefresh_frame_witness :
    (initialItemRefresh ⟨false, 1, 0, 0⟩ ⟨0, 10, 1000⟩
        [⟨5, false⟩, ⟨7, false⟩]).1[0]? = some ⟨5, true⟩ ∧
    (initialItemRefresh ⟨false, 1, 0, 0⟩ ⟨0, 10, 1000⟩
        [⟨5, false⟩, ⟨7, false⟩]).1[1]? = some ⟨7, false⟩ :=
  ⟨((initialItemRefresh_frame ⟨false, 1, 0, 0⟩ ⟨0, 10, 1000⟩
        [⟨5, false⟩, ⟨7, false⟩]).2.2 0 ⟨5, false⟩ rfl).1 (by decide),
    ((initialItemRefresh_frame ⟨false, 1, 0, 0⟩ ⟨0, 10, 1000⟩
        [⟨5, false⟩, ⟨7, false⟩]).2.2 1 ⟨7, false⟩ rfl).2 (by decide)⟩

end DwLazyList
